import Mathlib

/-!
Verification development for the paystack_wallet repository.

The definitions below are a shallow embedding of the ledger code:

* `src/app/models.py`      — `Wallet`, `Transaction`, the status/type enums
  (UUID keys are modelled as `Nat`; the `reference` column carries the
  storage-level unique constraint, as does `Wallet.id`).
* `src/app/wallet_service.py` — `credit_wallet` (lines 10-38) and
  `transfer_funds` (lines 40-107).
* `src/app/routers/wallet.py` — `initiate_wallet_deposit` (lines 57-142)
  and `paystack_webhook` (lines 145-186).
* `src/app/auth_utils.py`  — `check_permission` (lines 129-134).

Database state is a pair of row lists; `scalar_one_or_none` row lookups
become `List.find?`; a SQLAlchemy unit of work that rolls back on an
exception becomes a function returning the pre-state together with the
error.  Timestamps are `Nat`; gateway and crypto collaborators (Paystack
HTTP responses, HMAC, JSON parsing) are passed in as explicit values or
function parameters.
-/

inductive TransactionStatus where
  | PENDING
  | SUCCESS
  | FAILED
deriving DecidableEq

inductive TransactionType where
  | DEPOSIT
  | TRANSFER
deriving DecidableEq

/-- Row of the `wallets` table (src/app/models.py lines 48-59); the UUID
primary key is modelled as a `Nat`.  `balance` is the BigInteger kobo
amount. -/
structure Wallet where
  id : Nat
  user_id : Nat
  wallet_number : String
  balance : Int
deriving DecidableEq

/-- Row of the `transactions` table (src/app/models.py lines 62-76); the
UUID primary key is elided — every modelled operation addresses a row
through its unique `reference`. -/
structure Transaction where
  wallet_id : Nat
  user_id : Nat
  type : TransactionType
  amount : Int
  status : TransactionStatus
  reference : String
  description : Option String
  authorization_url : Option String
  paid_at : Option Nat
deriving DecidableEq

/-- The ledger store: the two tables the ledger engine mutates. -/
structure DB where
  wallets : List Wallet
  transactions : List Transaction
deriving DecidableEq

instance {ε α : Type} [DecidableEq ε] [DecidableEq α] : DecidableEq (Except ε α) := fun a b =>
  match a, b with
  | Except.ok x, Except.ok y =>
      if h : x = y then isTrue (by rw [h]) else isFalse (fun hc => h (Except.ok.inj hc))
  | Except.ok _, Except.error _ => isFalse (fun hc => Except.noConfusion hc)
  | Except.error _, Except.ok _ => isFalse (fun hc => Except.noConfusion hc)
  | Except.error e, Except.error f =>
      if h : e = f then isTrue (by rw [h]) else isFalse (fun hc => h (Except.error.inj hc))

/-- `credit_wallet` from src/app/wallet_service.py lines 10-38.  The
Python function receives the ORM `Transaction` object; here the row is
identified by its unique `reference` when written back.  Branches, in
source order: wallet row missing → mark the transaction FAILED with the
diagnostic description; transaction already SUCCESS → no-op; otherwise
add the transaction amount to the wallet balance and mark the
transaction SUCCESS with `paid_at` set. -/
def credit_wallet (db : DB) (t : Transaction) (now : Nat) : DB :=
  match db.wallets.find? (fun w => w.id == t.wallet_id) with
  | none =>
      { db with transactions := db.transactions.map (fun x =>
          if x.reference == t.reference then
            { x with status := TransactionStatus.FAILED,
                     description := some "Failed: Wallet not found." }
          else x) }
  | some wallet =>
      if t.status == TransactionStatus.SUCCESS then db
      else
        { wallets := db.wallets.map (fun w =>
            if w.id == wallet.id then { w with balance := w.balance + t.amount } else w),
          transactions := db.transactions.map (fun x =>
            if x.reference == t.reference then
              { x with status := TransactionStatus.SUCCESS, paid_at := some now }
            else x) }

inductive TransferError where
  | SenderNotFound
  | InsufficientFunds
  | RecipientNotFound
  | SameWallet
deriving DecidableEq

/-- `transfer_funds` from src/app/wallet_service.py lines 40-107.  The
two fresh `xfer_` references are parameters (the Python code draws them
from `uuid.uuid4()`).  Checks appear in source order: sender lookup by
`user_id`, balance check, recipient lookup by `wallet_number`,
same-wallet check; then both balances are updated and the two TRANSFER
rows are appended inside the same unit of work. -/
def transfer_funds (db : DB) (sender_user_id : Nat) (recipient_wallet_number : String)
    (amount : Int) (refS refR : String) (now : Nat) : Except TransferError DB :=
  match db.wallets.find? (fun w => w.user_id == sender_user_id) with
  | none => Except.error TransferError.SenderNotFound
  | some sender_wallet =>
    if sender_wallet.balance < amount then Except.error TransferError.InsufficientFunds
    else
      match db.wallets.find? (fun w => w.wallet_number == recipient_wallet_number) with
      | none => Except.error TransferError.RecipientNotFound
      | some recipient_wallet =>
        if sender_wallet.id == recipient_wallet.id then Except.error TransferError.SameWallet
        else
          Except.ok {
            wallets := db.wallets.map (fun w =>
              if w.id == sender_wallet.id then { w with balance := w.balance - amount }
              else if w.id == recipient_wallet.id then { w with balance := w.balance + amount }
              else w),
            transactions := db.transactions ++
              [ { wallet_id := sender_wallet.id, user_id := sender_wallet.user_id,
                  type := TransactionType.TRANSFER, amount := -amount,
                  status := TransactionStatus.SUCCESS, reference := refS,
                  description := some ("Transfer to wallet " ++ recipient_wallet.wallet_number),
                  authorization_url := none, paid_at := some now },
                { wallet_id := recipient_wallet.id, user_id := recipient_wallet.user_id,
                  type := TransactionType.TRANSFER, amount := amount,
                  status := TransactionStatus.SUCCESS, reference := refR,
                  description := some ("Transfer from wallet " ++ sender_wallet.wallet_number),
                  authorization_url := none, paid_at := some now } ] }

/-- The transfer operation as observed by the caller: `transfer_funds`
runs inside `async with db.begin_nested()` (src/app/wallet_service.py
line 45), so an exception aborts the unit and the store keeps its
pre-state. -/
def runTransfer (db : DB) (sid : Nat) (rnum : String) (amount : Int)
    (refS refR : String) (now : Nat) : DB × Except TransferError Unit :=
  match transfer_funds db sid rnum amount refS refR now with
  | Except.ok db2 => (db2, Except.ok ())
  | Except.error e => (db, Except.error e)

/-- The sequence of wallet rows on which `transfer_funds` executes
`SELECT ... FOR UPDATE` (src/app/wallet_service.py lines 46-62), in
acquisition order: the sender row (matched by `user_id`) is locked
first, the recipient row (matched by `wallet_number`) second. -/
def transfer_lock_trace (db : DB) (sender_user_id : Nat)
    (recipient_wallet_number : String) (amount : Int) : List Nat :=
  match db.wallets.find? (fun w => w.user_id == sender_user_id) with
  | none => []
  | some sender_wallet =>
    if sender_wallet.balance < amount then [sender_wallet.id]
    else
      match db.wallets.find? (fun w => w.wallet_number == recipient_wallet_number) with
      | none => [sender_wallet.id]
      | some recipient_wallet => [sender_wallet.id, recipient_wallet.id]

/-- Outcome of the Paystack initialize call as seen by
`initiate_wallet_deposit`: the HTTP status code, the truthiness of the
response body's `status` field, and the authorization URL. -/
structure GatewayResponse where
  status_code : Nat
  ok_status : Bool
  authorization_url : String
deriving DecidableEq

inductive DepositError where
  | NoWallet
  | InvalidAmount
  | GatewayUnavailable
deriving DecidableEq

/-- `initiate_wallet_deposit` from src/app/routers/wallet.py lines
57-142.  In source order: wallet lookup by `user_id` (404 if absent),
amount validation (400 if non-positive), reference generation
`"dep_" ++ suffix`, insertion of the PENDING transaction, then the
gateway call.  A non-200 gateway response deletes the just-inserted row
and commits (lines 116-123), so the net state is the pre-state; a 200
response whose body `status` is falsy raises 402 with no deletion
(lines 127-131), leaving the PENDING row; on success the row gains the
authorization URL. -/
def initiate_wallet_deposit (db : DB) (uid : Nat) (amount : Int)
    (suffix : String) (resp : GatewayResponse) :
    DB × Except DepositError (String × String) :=
  match db.wallets.find? (fun w => w.user_id == uid) with
  | none => (db, Except.error DepositError.NoWallet)
  | some wallet =>
    if amount ≤ 0 then (db, Except.error DepositError.InvalidAmount)
    else
      let ref := "dep_" ++ suffix
      let tx : Transaction :=
        { wallet_id := wallet.id, user_id := uid, type := TransactionType.DEPOSIT,
          amount := amount, status := TransactionStatus.PENDING, reference := ref,
          description := some "Wallet deposit via Paystack",
          authorization_url := none, paid_at := none }
      if resp.status_code ≠ 200 then
        (db, Except.error DepositError.GatewayUnavailable)
      else if resp.ok_status = false then
        ({ db with transactions := db.transactions ++ [tx] },
         Except.error DepositError.GatewayUnavailable)
      else
        ({ db with transactions := db.transactions ++
             [{ tx with authorization_url := some resp.authorization_url }] },
         Except.ok (ref, resp.authorization_url))

/-- Python `str.startswith`, evaluated on the character sequence (the
built-in `String.startsWith` is extensionally the same but does not
reduce in the kernel). -/
def strStartsWith (s p : String) : Bool := p.data.isPrefixOf s.data

/-- The fields of the parsed webhook JSON that the handler reads:
`event.get("event")` and `event.get("data", {}).get("reference")`. -/
structure WebhookEvent where
  event : Option String
  reference : Option String
deriving DecidableEq

/-- The ledger part of `paystack_webhook`, src/app/routers/wallet.py
lines 170-186: after signature verification, the wallet is credited
only for a `charge.success` event whose reference is truthy, starts
with `"dep_"`, and resolves to a transaction that is still PENDING. -/
def webhook_ledger (db : DB) (ev : WebhookEvent) (now : Nat) : DB :=
  if ev.event == some "charge.success" then
    match ev.reference with
    | some r =>
        if (!(r == "")) && strStartsWith r "dep_" then
          match db.transactions.find? (fun x => x.reference == r) with
          | some t =>
              if t.status == TransactionStatus.PENDING then credit_wallet db t now else db
          | none => db
        else db
    | none => db
  else db

/-- `paystack_webhook` from src/app/routers/wallet.py lines 145-186.
`mac` stands for `hmac.new(secret, body, sha512).hexdigest()` and
`parse` for `request.json()`; both are explicit parameters.  Returns
the resulting store state together with either the protocol-level
rejection (the HTTPException detail) or the `WebhookResponse(status=True)`
acknowledgement. -/
def paystack_webhook (mac : String → String → String) (parse : String → WebhookEvent)
    (secret : String) (db : DB) (body : String) (sig : Option String) (now : Nat) :
    DB × Except String Bool :=
  match sig with
  | none => (db, Except.error "Missing Paystack signature")
  | some s =>
      if mac secret body == s then (webhook_ledger db (parse body) now, Except.ok true)
      else (db, Except.error "Invalid signature")

/-- The condition under which the authenticated webhook handler reaches
`credit_wallet` (src/app/routers/wallet.py lines 175-184). -/
def webhookGuard (ev : WebhookEvent) (db : DB) : Bool :=
  ev.event == some "charge.success" &&
  (match ev.reference with
   | some r =>
       (!(r == "")) && strStartsWith r "dep_" &&
       (match db.transactions.find? (fun x => x.reference == r) with
        | some t => t.status == TransactionStatus.PENDING
        | none => false)
   | none => false)

/-- Deposit confirmation for a given reference: the webhook body Paystack
sends for a successful charge, fed through the handler's ledger part. -/
def confirmDeposit (db : DB) (r : String) (now : Nat) : DB :=
  webhook_ledger db { event := some "charge.success", reference := some r } now

/-- `check_permission` from src/app/auth_utils.py lines 129-134: a pure
membership test raising 403 with a detail naming the missing
permission. -/
def check_permission (required : String) (permissions : List String) : Except String Unit :=
  if required ∉ permissions then
    Except.error ("Insufficient permissions. \x27" ++ required ++ "\x27 required.")
  else Except.ok ()

/-- One request-level ledger operation, carrying the environment inputs
(fresh reference suffixes, gateway outcome, timestamps) it consumes. -/
inductive LedgerOp where
  | initiateDeposit (uid : Nat) (amount : Int) (suffix : String) (resp : GatewayResponse)
  | confirmDeposit (r : String) (now : Nat)
  | transfer (sid : Nat) (rnum : String) (amount : Int) (sufS sufR : String) (now : Nat)

/-- State transition of one ledger operation as exposed by the routers.
Deposit initiation applies the router's own validations; the transfer
route rejects non-positive amounts before calling `transfer_funds`
(src/app/routers/wallet.py lines 311-319).  An insertion whose fresh
reference collides with an existing one is rejected by the storage
unique constraint on `Transaction.reference` (src/app/models.py line
71), aborting the unit with the state unchanged. -/
def applyOp (db : DB) (op : LedgerOp) : DB :=
  match op with
  | LedgerOp.initiateDeposit uid amount suffix resp =>
      if db.transactions.any (fun t => t.reference == "dep_" ++ suffix) then db
      else (initiate_wallet_deposit db uid amount suffix resp).1
  | LedgerOp.confirmDeposit r now => confirmDeposit db r now
  | LedgerOp.transfer sid rnum amount sufS sufR now =>
      if amount ≤ 0 then db
      else if ("xfer_" ++ sufS : String) == "xfer_" ++ sufR then db
      else if db.transactions.any (fun t =>
          t.reference == "xfer_" ++ sufS || t.reference == "xfer_" ++ sufR) then db
      else (runTransfer db sid rnum amount ("xfer_" ++ sufS) ("xfer_" ++ sufR) now).1

/-- Contribution of one transaction row to a wallet's balance under the
ledger invariant: SUCCESS rows count their signed amount, others count
zero. -/
def contrib (wid : Nat) (t : Transaction) : Int :=
  if t.wallet_id = wid ∧ t.status = TransactionStatus.SUCCESS then t.amount else 0

/-- Sum of all SUCCESS-status transaction amounts against a wallet. -/
def txSum (wid : Nat) (ts : List Transaction) : Int :=
  (ts.map (contrib wid)).sum

/-- The ledger invariant: unique wallet ids, unique transaction
references (both are storage unique constraints), every PENDING row has
a positive amount (deposit initiation validates `amount > 0`), and each
wallet balance is non-negative and equal to the sum of SUCCESS amounts
against it. -/
def LedgerInv (db : DB) : Prop :=
  (db.wallets.map Wallet.id).Nodup ∧
  (db.transactions.map Transaction.reference).Nodup ∧
  (∀ t ∈ db.transactions, t.status = TransactionStatus.PENDING → 0 < t.amount) ∧
  (∀ w ∈ db.wallets, 0 ≤ w.balance ∧ w.balance = txSum w.id db.transactions)

/-! ### Generic list helper lemmas -/

theorem map_id_of_mem {α : Type} (f : α → α) (l : List α) (h : ∀ x ∈ l, f x = x) :
    l.map f = l := by
  induction l with
  | nil => rfl
  | cons hd tl ih =>
    rw [List.map_cons, h hd (List.mem_cons_self hd tl),
      ih (fun x hx => h x (List.mem_cons_of_mem hd hx))]

theorem find_map_key {α β : Type} [BEq β] (f : α → β) (g : α → α)
    (hg : ∀ x, f (g x) = f x) (l : List α) (b : β) :
    (l.map g).find? (fun x => f x == b) = (l.find? (fun x => f x == b)).map g := by
  induction l with
  | nil => rfl
  | cons hd tl ih =>
    simp only [List.map_cons, List.find?]
    rw [hg hd]
    cases f hd == b with
    | true => rfl
    | false => exact ih

theorem find_key_of_nodup {α β : Type} [DecidableEq β] (f : α → β) (l : List α) (a : α)
    (h : (l.map f).Nodup) (ha : a ∈ l) : l.find? (fun x => f x == f a) = some a := by
  induction l with
  | nil => cases ha
  | cons hd tl ih =>
    simp only [List.map_cons, List.nodup_cons] at h
    rcases List.mem_cons.mp ha with rfl | hmem
    · simp only [List.find?, beq_self_eq_true]
    · have hne : (f hd == f a) = false := by
        apply beq_eq_false_iff_ne.mpr
        intro heq
        exact h.1 (heq ▸ List.mem_map_of_mem f hmem)
      simp only [List.find?, hne]
      exact ih h.2 hmem

theorem txSum_cons (wid : Nat) (t : Transaction) (ts : List Transaction) :
    txSum wid (t :: ts) = contrib wid t + txSum wid ts := by
  simp [txSum]

theorem txSum_append (wid : Nat) (ts us : List Transaction) :
    txSum wid (ts ++ us) = txSum wid ts + txSum wid us := by
  simp [txSum]

theorem txSum_map_update (f : Transaction → Transaction) (r : String)
    (hf : ∀ x, x.reference ≠ r → f x = x)
    (ts : List Transaction) (t : Transaction)
    (hnd : (ts.map Transaction.reference).Nodup)
    (hfind : ts.find? (fun x => x.reference == r) = some t) (wid : Nat) :
    txSum wid (ts.map f) = txSum wid ts - contrib wid t + contrib wid (f t) := by
  induction ts with
  | nil => simp [List.find?] at hfind
  | cons hd tl ih =>
    simp only [List.map_cons, List.nodup_cons] at hnd
    cases hbeq : (hd.reference == r) with
    | true =>
        have hr : hd.reference = r := by simpa using hbeq
        simp only [List.find?, hbeq] at hfind
        obtain rfl : hd = t := by injection hfind
        have htl : tl.map f = tl := map_id_of_mem f tl (fun x hx => hf x (by
          intro hxr
          exact hnd.1 (hr ▸ hxr ▸ List.mem_map_of_mem Transaction.reference hx)))
        rw [List.map_cons, txSum_cons, txSum_cons, htl]
        ring
    | false =>
        have hr : hd.reference ≠ r := by simpa using hbeq
        simp only [List.find?, hbeq] at hfind
        rw [List.map_cons, txSum_cons, txSum_cons, hf hd hr, ih hnd.2 hfind]
        ring

/-! ### Claim theorems -/

/-- Claim C3: a transfer request whose sender wallet balance, read under
the lock, is below the requested amount signals InsufficientFunds and
has zero side effects — the unit aborts with the store in its
pre-state, so no balance changes and no transaction rows are
written. -/
theorem C3_insufficient_funds_no_effect (db : DB) (sid : Nat) (rnum : String)
    (amount : Int) (refS refR : String) (now : Nat) (sender : Wallet)
    (hs : db.wallets.find? (fun w => w.user_id == sid) = some sender)
    (hlt : sender.balance < amount) :
    transfer_funds db sid rnum amount refS refR now =
      Except.error TransferError.InsufficientFunds ∧
    runTransfer db sid rnum amount refS refR now =
      (db, Except.error TransferError.InsufficientFunds) := by
  have h1 : transfer_funds db sid rnum amount refS refR now =
      Except.error TransferError.InsufficientFunds := by
    simp only [transfer_funds, hs, if_pos hlt]
  exact ⟨h1, by simp [runTransfer, h1]⟩

/-- Witness for C3 at a concrete store: balance 10, requested 20. -/
theorem C3_insufficient_funds_no_effect_witness :
    transfer_funds (DB.mk [Wallet.mk 1 1 "W1" 10, Wallet.mk 2 2 "W2" 0] []) 1 "W2" 20
        "xfer_a" "xfer_b" 0 = Except.error TransferError.InsufficientFunds ∧
    runTransfer (DB.mk [Wallet.mk 1 1 "W1" 10, Wallet.mk 2 2 "W2" 0] []) 1 "W2" 20
        "xfer_a" "xfer_b" 0 =
      (DB.mk [Wallet.mk 1 1 "W1" 10, Wallet.mk 2 2 "W2" 0] [],
       Except.error TransferError.InsufficientFunds) :=
  C3_insufficient_funds_no_effect
    (DB.mk [Wallet.mk 1 1 "W1" 10, Wallet.mk 2 2 "W2" 0] []) 1 "W2" 20
    "xfer_a" "xfer_b" 0 (Wallet.mk 1 1 "W1" 10) (by decide) (by decide)

/-- Counterexample to claim C5 as stated: with a single wallet (id 1,
user 1, number W1, balance 10), a transfer of 20 from user 1 to wallet
number W1 is a self-transfer whose balance is below the amount, yet the
code signals InsufficientFunds, not InvalidOperation "same wallet",
because the balance check precedes the recipient lookup and same-wallet
check (src/app/wallet_service.py lines 55-68). -/
theorem C5_cex_self_transfer_insufficient :
    (DB.mk [Wallet.mk 1 1 "W1" 10] []).wallets.find? (fun w => w.user_id == 1) =
      some (Wallet.mk 1 1 "W1" 10) ∧
    (DB.mk [Wallet.mk 1 1 "W1" 10] []).wallets.find? (fun w => w.wallet_number == "W1") =
      some (Wallet.mk 1 1 "W1" 10) ∧
    transfer_funds (DB.mk [Wallet.mk 1 1 "W1" 10] []) 1 "W1" 20 "xfer_a" "xfer_b" 0 =
      Except.error TransferError.InsufficientFunds ∧
    transfer_funds (DB.mk [Wallet.mk 1 1 "W1" 10] []) 1 "W1" 20 "xfer_a" "xfer_b" 0 ≠
      Except.error TransferError.SameWallet := by
  refine ⟨by decide, by decide, by decide, by decide⟩

/-- Claim C5 as amended: when the recipient wallet number resolves to
the sender's own wallet AND the sender's balance is at least the
requested amount, the operation is rejected with InvalidOperation
"same wallet" and no state is modified; when the balance is below the
amount, InsufficientFunds is signalled first instead. -/
theorem C5_same_wallet_rejected (db : DB) (sid : Nat) (rnum : String) (amount : Int)
    (refS refR : String) (now : Nat) (sender recipient : Wallet)
    (hs : db.wallets.find? (fun w => w.user_id == sid) = some sender)
    (hb : ¬ sender.balance < amount)
    (hr : db.wallets.find? (fun w => w.wallet_number == rnum) = some recipient)
    (hsame : sender.id = recipient.id) :
    transfer_funds db sid rnum amount refS refR now =
      Except.error TransferError.SameWallet ∧
    runTransfer db sid rnum amount refS refR now =
      (db, Except.error TransferError.SameWallet) := by
  have h1 : transfer_funds db sid rnum amount refS refR now =
      Except.error TransferError.SameWallet := by
    simp only [transfer_funds, hs, if_neg hb, hr, hsame, beq_self_eq_true, if_true]
  exact ⟨h1, by simp [runTransfer, h1]⟩

/-- Witness for the amended C5: self-transfer of 5 against balance 10. -/
theorem C5_same_wallet_rejected_witness :
    transfer_funds (DB.mk [Wallet.mk 1 1 "W1" 10] []) 1 "W1" 5 "xfer_a" "xfer_b" 0 =
      Except.error TransferError.SameWallet ∧
    runTransfer (DB.mk [Wallet.mk 1 1 "W1" 10] []) 1 "W1" 5 "xfer_a" "xfer_b" 0 =
      (DB.mk [Wallet.mk 1 1 "W1" 10] [], Except.error TransferError.SameWallet) :=
  C5_same_wallet_rejected (DB.mk [Wallet.mk 1 1 "W1" 10] []) 1 "W1" 5 "xfer_a" "xfer_b" 0
    (Wallet.mk 1 1 "W1" 10) (Wallet.mk 1 1 "W1" 10)
    (by decide) (by decide) (by decide) (by decide)

/-- Claim C6, evaluated at the failing input: when the gateway answers
HTTP 200 with a falsy body status, the handler raises
GatewayUnavailable but the just-created PENDING transaction is NOT
rolled back — an orphan PENDING row remains (first two conjuncts);
only the non-200 branch restores the pre-state (third conjunct). -/
theorem C6_gateway_nonsuccess_orphan :
    (initiate_wallet_deposit (DB.mk [Wallet.mk 1 10 "W1" 0] []) 10 500 "x"
        (GatewayResponse.mk 200 false "")).1.transactions =
      [ Transaction.mk 1 10 TransactionType.DEPOSIT 500 TransactionStatus.PENDING
          "dep_x" (some "Wallet deposit via Paystack") none none ] ∧
    (initiate_wallet_deposit (DB.mk [Wallet.mk 1 10 "W1" 0] []) 10 500 "x"
        (GatewayResponse.mk 200 false "")).2 =
      Except.error DepositError.GatewayUnavailable ∧
    (initiate_wallet_deposit (DB.mk [Wallet.mk 1 10 "W1" 0] []) 10 500 "x"
        (GatewayResponse.mk 500 false "")).1 = DB.mk [Wallet.mk 1 10 "W1" 0] [] := by
  refine ⟨by decide, by decide, by decide⟩

/-- Claim C8: the authorization gate lets an operation proceed iff its
required permission is a member of the credential's permission set, and
otherwise fails with Forbidden naming the missing permission. -/
theorem C8_permission_gate (required : String) (permissions : List String)
    (hreq : required ∈ ["deposit", "transfer", "read"]) :
    (check_permission required permissions = Except.ok () ↔ required ∈ permissions) ∧
    (required ∉ permissions →
      check_permission required permissions =
        Except.error ("Insufficient permissions. \x27" ++ required ++ "\x27 required.")) := by
  constructor
  · constructor
    · intro h
      by_contra hmem
      simp [check_permission, hmem] at h
    · intro h
      simp [check_permission, h]
  · intro h
    simp [check_permission, h]

/-- Witness for C8: the deposit permission checked against a read-only
key is refused with the detail naming "deposit". -/
theorem C8_permission_gate_witness :
    (check_permission "deposit" ["read"] = Except.ok () ↔
      "deposit" ∈ (["read"] : List String)) ∧
    ("deposit" ∉ (["read"] : List String) →
      check_permission "deposit" ["read"] =
        Except.error ("Insufficient permissions. \x27" ++ "deposit" ++ "\x27 required.")) :=
  C8_permission_gate "deposit" ["read"] (by decide)

/-- Claim C9, evaluated at the failing input: `transfer_funds` locks
the sender's wallet row first and the recipient's second, so the two
opposite-direction transfers between wallets 1 and 2 acquire the same
two locks in opposite orders — the acquisition order is not a fixed
total order over wallet identity. -/
theorem C9_lock_order_not_total :
    transfer_lock_trace
        (DB.mk [Wallet.mk 1 10 "W1" 100, Wallet.mk 2 20 "W2" 100] []) 10 "W2" 5 = [1, 2] ∧
    transfer_lock_trace
        (DB.mk [Wallet.mk 1 10 "W1" 100, Wallet.mk 2 20 "W2" 100] []) 20 "W1" 5 = [2, 1] ∧
    ([1, 2] : List Nat) ≠ [2, 1] := by
  refine ⟨by decide, by decide, by decide⟩

/-- Claim C2: a successful transfer of positive amount `a` between two
distinct wallets conserves the sum of the two balances and creates, in
the same atomic unit, exactly two TRANSFER rows, both SUCCESS, with
amounts `-a` (sender leg) and `+a` (recipient leg), summing to zero. -/
theorem C2_transfer_conservation (db : DB) (sid : Nat) (rnum : String) (a : Int)
    (refS refR : String) (now : Nat) (sender recipient : Wallet)
    (hids : (db.wallets.map Wallet.id).Nodup)
    (hpos : 0 < a)
    (hs : db.wallets.find? (fun w => w.user_id == sid) = some sender)
    (hb : ¬ sender.balance < a)
    (hr : db.wallets.find? (fun w => w.wallet_number == rnum) = some recipient)
    (hne : sender.id ≠ recipient.id) :
    ∃ db2, transfer_funds db sid rnum a refS refR now = Except.ok db2 ∧
      db2.wallets.find? (fun w => w.id == sender.id) =
        some { sender with balance := sender.balance - a } ∧
      db2.wallets.find? (fun w => w.id == recipient.id) =
        some { recipient with balance := recipient.balance + a } ∧
      (sender.balance - a) + (recipient.balance + a) = sender.balance + recipient.balance ∧
      ∃ tS tR, db2.transactions = db.transactions ++ [tS, tR] ∧
        tS.type = TransactionType.TRANSFER ∧ tR.type = TransactionType.TRANSFER ∧
        tS.status = TransactionStatus.SUCCESS ∧ tR.status = TransactionStatus.SUCCESS ∧
        tS.wallet_id = sender.id ∧ tR.wallet_id = recipient.id ∧
        tS.amount = -a ∧ tR.amount = a ∧ tS.amount + tR.amount = 0 := by
  have hbeq : (sender.id == recipient.id) = false := by
    exact beq_eq_false_iff_ne.mpr hne
  have hsmem : sender ∈ db.wallets := List.mem_of_find?_eq_some hs
  have hrmem : recipient ∈ db.wallets := List.mem_of_find?_eq_some hr
  have hok : transfer_funds db sid rnum a refS refR now = Except.ok (DB.mk
      (db.wallets.map (fun w =>
        if w.id == sender.id then { w with balance := w.balance - a }
        else if w.id == recipient.id then { w with balance := w.balance + a } else w))
      (db.transactions ++
        [ { wallet_id := sender.id, user_id := sender.user_id,
            type := TransactionType.TRANSFER, amount := -a,
            status := TransactionStatus.SUCCESS, reference := refS,
            description := some ("Transfer to wallet " ++ recipient.wallet_number),
            authorization_url := none, paid_at := some now },
          { wallet_id := recipient.id, user_id := recipient.user_id,
            type := TransactionType.TRANSFER, amount := a,
            status := TransactionStatus.SUCCESS, reference := refR,
            description := some ("Transfer from wallet " ++ sender.wallet_number),
            authorization_url := none, paid_at := some now } ])) := by
    simp only [transfer_funds, hs, hr, if_neg hb, hbeq, Bool.false_eq_true, if_false]
  have hg : ∀ x : Wallet,
      (if x.id == sender.id then { x with balance := x.balance - a }
       else if x.id == recipient.id then { x with balance := x.balance + a } else x).id
        = x.id := by
    intro x
    by_cases h1 : (x.id == sender.id) = true
    · simp [h1]
    · by_cases h2 : (x.id == recipient.id) = true
      · simp [h1, h2]
      · simp [h1, h2]
  refine ⟨_, hok, ?_, ?_, by ring, ?_⟩
  · rw [find_map_key Wallet.id _ hg db.wallets sender.id,
      find_key_of_nodup Wallet.id db.wallets sender hids hsmem]
    simp
  · rw [find_map_key Wallet.id _ hg db.wallets recipient.id,
      find_key_of_nodup Wallet.id db.wallets recipient hids hrmem]
    have hbeq2 : (recipient.id == sender.id) = false :=
      beq_eq_false_iff_ne.mpr (fun h => hne h.symm)
    simp [hbeq2]
    intro h
    exact absurd h.symm hne
  · exact ⟨_, _, rfl, rfl, rfl, rfl, rfl, rfl, rfl, rfl, rfl, by ring⟩

/-- Witness for C2: the spec scenario — balance 10000 transfers 3000 to
a wallet with balance 5000. -/
theorem C2_transfer_conservation_witness :
    ∃ db2, transfer_funds
        (DB.mk [Wallet.mk 1 1 "W1" 10000, Wallet.mk 2 2 "W2" 5000] [])
        1 "W2" 3000 "xfer_s" "xfer_r" 7 = Except.ok db2 ∧
      db2.wallets.find? (fun w => w.id == (Wallet.mk 1 1 "W1" 10000).id) =
        some { Wallet.mk 1 1 "W1" 10000 with balance := (Wallet.mk 1 1 "W1" 10000).balance - 3000 } ∧
      db2.wallets.find? (fun w => w.id == (Wallet.mk 2 2 "W2" 5000).id) =
        some { Wallet.mk 2 2 "W2" 5000 with balance := (Wallet.mk 2 2 "W2" 5000).balance + 3000 } ∧
      ((Wallet.mk 1 1 "W1" 10000).balance - 3000) + ((Wallet.mk 2 2 "W2" 5000).balance + 3000)
        = (Wallet.mk 1 1 "W1" 10000).balance + (Wallet.mk 2 2 "W2" 5000).balance ∧
      ∃ tS tR, db2.transactions =
          (DB.mk [Wallet.mk 1 1 "W1" 10000, Wallet.mk 2 2 "W2" 5000] []).transactions ++ [tS, tR] ∧
        tS.type = TransactionType.TRANSFER ∧ tR.type = TransactionType.TRANSFER ∧
        tS.status = TransactionStatus.SUCCESS ∧ tR.status = TransactionStatus.SUCCESS ∧
        tS.wallet_id = (Wallet.mk 1 1 "W1" 10000).id ∧ tR.wallet_id = (Wallet.mk 2 2 "W2" 5000).id ∧
        tS.amount = -3000 ∧ tR.amount = 3000 ∧ tS.amount + tR.amount = 0 :=
  C2_transfer_conservation
    (DB.mk [Wallet.mk 1 1 "W1" 10000, Wallet.mk 2 2 "W2" 5000] [])
    1 "W2" 3000 "xfer_s" "xfer_r" 7 (Wallet.mk 1 1 "W1" 10000) (Wallet.mk 2 2 "W2" 5000)
    (by decide) (by decide) (by decide) (by decide) (by decide) (by decide)

/-- Claim C7: a webhook delivery whose HMAC signature is absent or does
not match is rejected before any ledger effect — the store is
unchanged and the handler answers with a protocol-level error. -/
theorem C7_webhook_signature_gate (mac : String → String → String)
    (parse : String → WebhookEvent) (secret : String) (db : DB) (body : String)
    (sig : Option String) (now : Nat)
    (h : sig = none ∨ ∃ s, sig = some s ∧ mac secret body ≠ s) :
    (paystack_webhook mac parse secret db body sig now).1 = db ∧
    ∃ msg, (paystack_webhook mac parse secret db body sig now).2 = Except.error msg := by
  rcases h with rfl | ⟨s, rfl, hne⟩
  · exact ⟨rfl, "Missing Paystack signature", rfl⟩
  · have hb : (mac secret body == s) = false := beq_eq_false_iff_ne.mpr hne
    exact ⟨by simp [paystack_webhook, hb], "Invalid signature",
      by simp [paystack_webhook, hb]⟩

/-- Witness for C7: a signature computed from a different value than the
provided header is rejected with the store unchanged. -/
theorem C7_webhook_signature_gate_witness :
    (paystack_webhook (fun a b => a ++ b) (fun _ => WebhookEvent.mk none none)
      "k" (DB.mk [] []) "b" (some "zz") 0).1 = DB.mk [] [] ∧
    ∃ msg, (paystack_webhook (fun a b => a ++ b) (fun _ => WebhookEvent.mk none none)
      "k" (DB.mk [] []) "b" (some "zz") 0).2 = Except.error msg :=
  C7_webhook_signature_gate (fun a b => a ++ b) (fun _ => WebhookEvent.mk none none)
    "k" (DB.mk [] []) "b" (some "zz") 0
    (Or.inr ⟨"zz", rfl, by decide⟩)

theorem webhook_ledger_noop (db : DB) (ev : WebhookEvent) (now : Nat)
    (hguard : webhookGuard ev db = false) : webhook_ledger db ev now = db := by
  unfold webhook_ledger
  cases hev : (ev.event == some "charge.success") with
  | false => simp [hev]
  | true =>
    simp only [hev, if_true]
    cases hre : ev.reference with
    | none => rfl
    | some r =>
      cases hcond : ((!(r == "")) && strStartsWith r "dep_") with
      | false => simp [hcond]
      | true =>
        simp only [hcond, if_true]
        cases hfind : db.transactions.find? (fun x => x.reference == r) with
        | none => rfl
        | some t =>
          simp only [hfind]
          have hstat : (t.status == TransactionStatus.PENDING) = false := by
            unfold webhookGuard at hguard
            rw [hev, Bool.true_and, hre] at hguard
            simp only [hcond, Bool.true_and, hfind] at hguard
            exact hguard
          simp [hstat]

/-- Claim C10: an authenticated webhook delivery mutates the ledger only
when the event is charge.success, its reference starts with "dep_" and
resolves to a still-PENDING transaction; every other authenticated
payload leaves the store unchanged and is still acknowledged with the
success response. -/
theorem C10_webhook_frame (mac : String → String → String)
    (parse : String → WebhookEvent) (secret : String) (db : DB) (body : String)
    (s : String) (now : Nat)
    (hmac : mac secret body = s) :
    (paystack_webhook mac parse secret db body (some s) now).2 = Except.ok true ∧
    (webhookGuard (parse body) db = false →
      (paystack_webhook mac parse secret db body (some s) now).1 = db) := by
  have hb : (mac secret body == s) = true := beq_iff_eq.mpr hmac
  exact ⟨by simp [paystack_webhook, hb], fun hguard => by
    simp [paystack_webhook, hb, webhook_ledger_noop db (parse body) now hguard]⟩

/-- Witness for C10: an authenticated delivery of a non-charge.success
event (a transfer-style reference) is acknowledged and leaves the store
— holding one wallet and one PENDING deposit row — unchanged. -/
theorem C10_webhook_frame_witness :
    (paystack_webhook (fun _ _ => "sig")
        (fun _ => WebhookEvent.mk (some "transfer.success") (some "xfer_ab")) "k"
        (DB.mk [Wallet.mk 1 10 "W1" 0]
          [Transaction.mk 1 10 TransactionType.DEPOSIT 5000 TransactionStatus.PENDING
            "dep_ab" none none none])
        "b" (some "sig") 0).2 = Except.ok true ∧
    (webhookGuard ((fun _ => WebhookEvent.mk (some "transfer.success") (some "xfer_ab"))
        ("b" : String))
        (DB.mk [Wallet.mk 1 10 "W1" 0]
          [Transaction.mk 1 10 TransactionType.DEPOSIT 5000 TransactionStatus.PENDING
            "dep_ab" none none none]) = false →
      (paystack_webhook (fun _ _ => "sig")
        (fun _ => WebhookEvent.mk (some "transfer.success") (some "xfer_ab")) "k"
        (DB.mk [Wallet.mk 1 10 "W1" 0]
          [Transaction.mk 1 10 TransactionType.DEPOSIT 5000 TransactionStatus.PENDING
            "dep_ab" none none none])
        "b" (some "sig") 0).1 =
      DB.mk [Wallet.mk 1 10 "W1" 0]
        [Transaction.mk 1 10 TransactionType.DEPOSIT 5000 TransactionStatus.PENDING
          "dep_ab" none none none]) :=
  C10_webhook_frame (fun _ _ => "sig")
    (fun _ => WebhookEvent.mk (some "transfer.success") (some "xfer_ab")) "k"
    (DB.mk [Wallet.mk 1 10 "W1" 0]
      [Transaction.mk 1 10 TransactionType.DEPOSIT 5000 TransactionStatus.PENDING
        "dep_ab" none none none])
    "b" "sig" 0 rfl

/-- Claim C1: for a deposit-confirmation delivery whose reference
matches an existing transaction (with its wallet present): if the
transaction status is not PENDING the delivery is a no-op; and starting
from PENDING, confirming the same reference n ≥ 1 times equals
confirming it once, which adds the transaction's own amount to the
wallet balance exactly once and sets the status to SUCCESS exactly
once. -/
theorem C1_confirm_idempotent (db : DB) (r : String) (now : Nat) (t : Transaction)
    (w : Wallet) (n : Nat)
    (ht : db.transactions.find? (fun x => x.reference == r) = some t)
    (hw : db.wallets.find? (fun x => x.id == t.wallet_id) = some w)
    (hdep : strStartsWith r "dep_" = true)
    (hrefs : (db.transactions.map Transaction.reference).Nodup)
    (hids : (db.wallets.map Wallet.id).Nodup) :
    (t.status ≠ TransactionStatus.PENDING → confirmDeposit db r now = db) ∧
    (t.status = TransactionStatus.PENDING → 1 ≤ n →
      Nat.iterate (fun s2 => confirmDeposit s2 r now) n db = confirmDeposit db r now ∧
      (confirmDeposit db r now).wallets.find? (fun x => x.id == t.wallet_id) =
        some { w with balance := w.balance + t.amount } ∧
      (confirmDeposit db r now).transactions.find? (fun x => x.reference == r) =
        some { t with status := TransactionStatus.SUCCESS, paid_at := some now }) := by
  have htr : t.reference = r := by
    have h2 := List.find?_some ht
    simpa using h2
  have hrne : (r == "") = false := by
    cases h0 : (r == "") with
    | false => rfl
    | true =>
      have hre : r = "" := by simpa using h0
      rw [hre] at hdep
      exact absurd hdep (by decide)
  constructor
  · intro hnp
    have hb : (t.status == TransactionStatus.PENDING) = false := beq_eq_false_iff_ne.mpr hnp
    simp [confirmDeposit, webhook_ledger, hrne, hdep, ht, hb]
  · intro hp hn
    have hb : (t.status == TransactionStatus.PENDING) = true := by simp [hp]
    have hnsucc : (t.status == TransactionStatus.SUCCESS) = false := by rw [hp]; rfl
    have hwid : w.id = t.wallet_id := by
      have h2 := List.find?_some hw
      simpa using h2
    have key : confirmDeposit db r now = DB.mk
        (db.wallets.map (fun x =>
          if x.id == w.id then { x with balance := x.balance + t.amount } else x))
        (db.transactions.map (fun x =>
          if x.reference == r then
            { x with status := TransactionStatus.SUCCESS, paid_at := some now }
          else x)) := by
      simp [confirmDeposit, webhook_ledger, credit_wallet, hrne, hdep, ht, hb, hw, hnsucc, htr]
    have hgw : ∀ x : Wallet,
        (if x.id == w.id then { x with balance := x.balance + t.amount } else x).id = x.id := by
      intro x
      by_cases h : (x.id == w.id) = true <;> simp [h]
    have hgt : ∀ x : Transaction,
        (if x.reference == r then
          { x with status := TransactionStatus.SUCCESS, paid_at := some now }
         else x).reference = x.reference := by
      intro x
      by_cases h : (x.reference == r) = true <;> simp [h]
    have hwfind : (confirmDeposit db r now).wallets.find? (fun x => x.id == t.wallet_id) =
        some { w with balance := w.balance + t.amount } := by
      rw [key]
      show (db.wallets.map _).find? (fun x => Wallet.id x == t.wallet_id) = _
      rw [find_map_key Wallet.id _ hgw db.wallets t.wallet_id, hw]
      simp
    have htfind : (confirmDeposit db r now).transactions.find? (fun x => x.reference == r) =
        some { t with status := TransactionStatus.SUCCESS, paid_at := some now } := by
      rw [key]
      show (db.transactions.map _).find? (fun x => Transaction.reference x == r) = _
      rw [find_map_key Transaction.reference _ hgt db.transactions r, ht]
      simp [htr]
    have hnoop : ∀ s2 : DB,
        s2.transactions.find? (fun x => x.reference == r) =
          some { t with status := TransactionStatus.SUCCESS, paid_at := some now } →
        confirmDeposit s2 r now = s2 := by
      intro s2 hf
      simp [confirmDeposit, webhook_ledger, hf, hrne, hdep]
    have hfix : confirmDeposit (confirmDeposit db r now) r now = confirmDeposit db r now :=
      hnoop (confirmDeposit db r now) htfind
    have hiter : ∀ m, Nat.iterate (fun s2 => confirmDeposit s2 r now) m
        (confirmDeposit db r now) = confirmDeposit db r now := by
      intro m
      induction m with
      | zero => rfl
      | succ k ih =>
        rw [Function.iterate_succ_apply]
        show Nat.iterate _ k (confirmDeposit (confirmDeposit db r now) r now) = _
        rw [hfix]
        exact ih
    refine ⟨?_, hwfind, htfind⟩
    cases n with
    | zero => exact absurd hn (by decide)
    | succ m =>
      rw [Function.iterate_succ_apply]
      exact hiter m

/-- Witness for C1: a single PENDING deposit of 5000, confirmed twice —
the second confirmation is a no-op, the balance rose by 5000 once and
the row is SUCCESS. -/
theorem C1_confirm_idempotent_witness :
    Nat.iterate (fun s2 => confirmDeposit s2 "dep_ab" 9) 2
        (DB.mk [Wallet.mk 1 10 "W1" 0]
          [Transaction.mk 1 10 TransactionType.DEPOSIT 5000 TransactionStatus.PENDING
            "dep_ab" none none none]) =
      confirmDeposit
        (DB.mk [Wallet.mk 1 10 "W1" 0]
          [Transaction.mk 1 10 TransactionType.DEPOSIT 5000 TransactionStatus.PENDING
            "dep_ab" none none none]) "dep_ab" 9 ∧
    (confirmDeposit
        (DB.mk [Wallet.mk 1 10 "W1" 0]
          [Transaction.mk 1 10 TransactionType.DEPOSIT 5000 TransactionStatus.PENDING
            "dep_ab" none none none]) "dep_ab" 9).wallets.find?
        (fun x => x.id == (Transaction.mk 1 10 TransactionType.DEPOSIT 5000
          TransactionStatus.PENDING "dep_ab" none none none).wallet_id) =
      some { Wallet.mk 1 10 "W1" 0 with
        balance := (Wallet.mk 1 10 "W1" 0).balance +
          (Transaction.mk 1 10 TransactionType.DEPOSIT 5000 TransactionStatus.PENDING
            "dep_ab" none none none).amount } ∧
    (confirmDeposit
        (DB.mk [Wallet.mk 1 10 "W1" 0]
          [Transaction.mk 1 10 TransactionType.DEPOSIT 5000 TransactionStatus.PENDING
            "dep_ab" none none none]) "dep_ab" 9).transactions.find?
        (fun x => x.reference == "dep_ab") =
      some { Transaction.mk 1 10 TransactionType.DEPOSIT 5000 TransactionStatus.PENDING
            "dep_ab" none none none with
          status := TransactionStatus.SUCCESS, paid_at := some 9 } :=
  (C1_confirm_idempotent
    (DB.mk [Wallet.mk 1 10 "W1" 0]
      [Transaction.mk 1 10 TransactionType.DEPOSIT 5000 TransactionStatus.PENDING
        "dep_ab" none none none])
    "dep_ab" 9
    (Transaction.mk 1 10 TransactionType.DEPOSIT 5000 TransactionStatus.PENDING
      "dep_ab" none none none)
    (Wallet.mk 1 10 "W1" 0) 2
    (by decide) (by decide) (by decide) (by decide) (by decide)).2 rfl (by decide)

/-! ### Invariant preservation lemmas for C4 -/

theorem map_map_key {α β : Type} (k : α → β) (f : α → α)
    (hf : ∀ x, k (f x) = k x) (l : List α) : (l.map f).map k = l.map k := by
  induction l with
  | nil => rfl
  | cons hd tl ih => simp [hf hd, ih]

theorem ref_fresh_of_any_false (ts : List Transaction) (r : String)
    (h : ts.any (fun t2 => t2.reference == r) = false) :
    r ∉ ts.map Transaction.reference := by
  intro hmem
  obtain ⟨t2, ht2, heq⟩ := List.mem_map.mp hmem
  have hp : (fun t2 : Transaction => t2.reference == r) t2 = true := by simp [heq]
  have htrue : ts.any (fun t2 => t2.reference == r) = true :=
    List.any_eq_true.mpr ⟨t2, ht2, hp⟩
  rw [htrue] at h
  exact Bool.noConfusion h

theorem inv_append_pending (db : DB) (tx : Transaction)
    (h : LedgerInv db)
    (hstat : tx.status = TransactionStatus.PENDING)
    (hamt : 0 < tx.amount)
    (hfresh : tx.reference ∉ db.transactions.map Transaction.reference) :
    LedgerInv (DB.mk db.wallets (db.transactions ++ [tx])) := by
  obtain ⟨hids, hrefs, hpend, hbal⟩ := h
  refine ⟨hids, ?_, ?_, ?_⟩
  · rw [List.map_append]
    simp [List.nodup_append, hrefs, hfresh]
  · intro t2 ht2 hstat2
    rcases List.mem_append.mp ht2 with hmem | hmem
    · exact hpend t2 hmem hstat2
    · rw [List.mem_singleton.mp hmem]
      exact hamt
  · intro w hw
    obtain ⟨h0, hsum⟩ := hbal w hw
    refine ⟨h0, ?_⟩
    rw [txSum_append]
    have hc : txSum w.id [tx] = 0 := by simp [txSum, contrib, hstat]
    rw [hc, hsum]
    ring

theorem inv_credit_failed_state (db : DB) (t : Transaction) (hinv : LedgerInv db)
    (hp : t.status = TransactionStatus.PENDING)
    (hfind : db.transactions.find? (fun x => x.reference == t.reference) = some t) :
    LedgerInv (DB.mk db.wallets (db.transactions.map (fun x =>
      if x.reference == t.reference then
        { x with status := TransactionStatus.FAILED,
                 description := some "Failed: Wallet not found." }
      else x))) := by
  obtain ⟨hids, hrefs, hpend, hbal⟩ := hinv
  have hgt : ∀ x : Transaction,
      (if x.reference == t.reference then
        { x with status := TransactionStatus.FAILED,
                 description := some "Failed: Wallet not found." }
       else x).reference = x.reference := by
    intro x
    by_cases hx : (x.reference == t.reference) = true <;> simp [hx]
  refine ⟨hids, ?_, ?_, ?_⟩
  · rw [map_map_key Transaction.reference _ hgt db.transactions]
    exact hrefs
  · intro t2 ht2 hstat2
    obtain ⟨x, hx, rfl⟩ := List.mem_map.mp ht2
    by_cases hxr : (x.reference == t.reference) = true
    · simp [hxr] at hstat2
    · simp only [hxr, Bool.false_eq_true, if_false] at hstat2 ⊢
      exact hpend x hx hstat2
  · intro w hw
    obtain ⟨h0, hsum⟩ := hbal w hw
    refine ⟨h0, ?_⟩
    rw [txSum_map_update _ t.reference
      (fun x hxne => by simp [beq_eq_false_iff_ne.mpr hxne])
      db.transactions t hrefs hfind w.id]
    have hc1 : contrib w.id t = 0 := by simp [contrib, hp]
    have hc2 : contrib w.id
        { t with status := TransactionStatus.FAILED,
                 description := some "Failed: Wallet not found." } = 0 := by
      simp [contrib]
    have hft : (if t.reference == t.reference then
        { t with status := TransactionStatus.FAILED,
                 description := some "Failed: Wallet not found." }
      else t) =
        { t with status := TransactionStatus.FAILED,
                 description := some "Failed: Wallet not found." } := by simp
    rw [hft, hc1, hc2, ← hsum]
    ring

theorem inv_credit_state (db : DB) (t : Transaction) (wallet : Wallet) (now : Nat)
    (hinv : LedgerInv db)
    (hp : t.status = TransactionStatus.PENDING)
    (hfind : db.transactions.find? (fun x => x.reference == t.reference) = some t)
    (hfw : db.wallets.find? (fun w2 => w2.id == t.wallet_id) = some wallet) :
    LedgerInv (DB.mk
      (db.wallets.map (fun w =>
        if w.id == wallet.id then { w with balance := w.balance + t.amount } else w))
      (db.transactions.map (fun x =>
        if x.reference == t.reference then
          { x with status := TransactionStatus.SUCCESS, paid_at := some now }
        else x))) := by
  obtain ⟨hids, hrefs, hpend, hbal⟩ := hinv
  have htmem : t ∈ db.transactions := List.mem_of_find?_eq_some hfind
  have hamt : 0 < t.amount := hpend t htmem hp
  have hwid : wallet.id = t.wallet_id := by simpa using List.find?_some hfw
  have hwmem : wallet ∈ db.wallets := List.mem_of_find?_eq_some hfw
  have hgw : ∀ x : Wallet,
      (if x.id == wallet.id then { x with balance := x.balance + t.amount } else x).id
        = x.id := by
    intro x
    by_cases hx : (x.id == wallet.id) = true <;> simp [hx]
  have hgt : ∀ x : Transaction,
      (if x.reference == t.reference then
        { x with status := TransactionStatus.SUCCESS, paid_at := some now } else x).reference
        = x.reference := by
    intro x
    by_cases hx : (x.reference == t.reference) = true <;> simp [hx]
  have hft : (if t.reference == t.reference then
      { t with status := TransactionStatus.SUCCESS, paid_at := some now } else t) =
      { t with status := TransactionStatus.SUCCESS, paid_at := some now } := by simp
  refine ⟨?_, ?_, ?_, ?_⟩
  · rw [map_map_key Wallet.id _ hgw db.wallets]
    exact hids
  · rw [map_map_key Transaction.reference _ hgt db.transactions]
    exact hrefs
  · intro t2 ht2 hstat2
    obtain ⟨x, hx, rfl⟩ := List.mem_map.mp ht2
    by_cases hxr : (x.reference == t.reference) = true
    · simp [hxr] at hstat2
    · simp only [hxr, Bool.false_eq_true, if_false] at hstat2 ⊢
      exact hpend x hx hstat2
  · intro w2 hw2
    obtain ⟨x, hx, rfl⟩ := List.mem_map.mp hw2
    obtain ⟨h0, hsum⟩ := hbal x hx
    have hsumeq : txSum x.id (db.transactions.map (fun x2 =>
        if x2.reference == t.reference then
          { x2 with status := TransactionStatus.SUCCESS, paid_at := some now } else x2)) =
        txSum x.id db.transactions - contrib x.id t + contrib x.id
          { t with status := TransactionStatus.SUCCESS, paid_at := some now } := by
      rw [txSum_map_update _ t.reference
        (fun x2 hxne => by simp [beq_eq_false_iff_ne.mpr hxne])
        db.transactions t hrefs hfind x.id]
      simp [hft]
    have hc1 : contrib x.id t = 0 := by simp [contrib, hp]
    cases hxw : (x.id == wallet.id) with
    | true =>
      have hxid : x.id = t.wallet_id := by
        rw [(by simpa using hxw : x.id = wallet.id), hwid]
      have hc2 : contrib x.id
          { t with status := TransactionStatus.SUCCESS, paid_at := some now } = t.amount := by
        simp [contrib, ← hxid]
      refine ⟨?_, ?_⟩ <;> simp only [hxw, if_true]
      · omega
      · show x.balance + t.amount = txSum x.id _
        rw [hsumeq, hc1, hc2, ← hsum]
        ring
    | false =>
      have hxne : t.wallet_id ≠ x.id := by
        intro he
        exact (by simpa using hxw : ¬ x.id = wallet.id) (hwid.trans he).symm
      have hc2 : contrib x.id
          { t with status := TransactionStatus.SUCCESS, paid_at := some now } = 0 := by
        simp [contrib, hxne]
      refine ⟨?_, ?_⟩ <;> simp only [hxw, Bool.false_eq_true, if_false]
      · exact h0
      · rw [hsumeq, hc1, hc2, ← hsum]
        ring

theorem inv_credit_wallet (db : DB) (t : Transaction) (now : Nat)
    (hinv : LedgerInv db)
    (hp : t.status = TransactionStatus.PENDING)
    (hfind : db.transactions.find? (fun x => x.reference == t.reference) = some t) :
    LedgerInv (credit_wallet db t now) := by
  unfold credit_wallet
  cases hfw : db.wallets.find? (fun w2 => w2.id == t.wallet_id) with
  | none => exact inv_credit_failed_state db t hinv hp hfind
  | some wallet =>
    have hns : (t.status == TransactionStatus.SUCCESS) = false := by rw [hp]; rfl
    simp only [hns, Bool.false_eq_true, if_false]
    exact inv_credit_state db t wallet now hinv hp hfind hfw

theorem inv_webhook_ledger (db : DB) (ev : WebhookEvent) (now : Nat)
    (hinv : LedgerInv db) : LedgerInv (webhook_ledger db ev now) := by
  unfold webhook_ledger
  cases hev : (ev.event == some "charge.success") with
  | false => simpa [hev] using hinv
  | true =>
    simp only [hev, if_true]
    cases hre : ev.reference with
    | none => exact hinv
    | some r =>
      cases hcond : ((!(r == "")) && strStartsWith r "dep_") with
      | false => simpa [hcond] using hinv
      | true =>
        simp only [hcond, if_true]
        cases hfind : db.transactions.find? (fun x => x.reference == r) with
        | none => exact hinv
        | some t =>
          simp only [hfind]
          cases hstat : (t.status == TransactionStatus.PENDING) with
          | false => simpa [hstat] using hinv
          | true =>
            simp only [hstat, if_true]
            have hp : t.status = TransactionStatus.PENDING := by simpa using hstat
            have htr : t.reference = r := by simpa using List.find?_some hfind
            rw [← htr] at hfind
            exact inv_credit_wallet db t now hinv hp hfind

theorem inv_transfer_state (db : DB) (sender recipient : Wallet) (amount : Int)
    (refS refR : String) (now : Nat)
    (hinv : LedgerInv db)
    (hsmem : sender ∈ db.wallets) (hrmem : recipient ∈ db.wallets)
    (hne : sender.id ≠ recipient.id)
    (hamt : 0 < amount)
    (hlt : ¬ sender.balance < amount)
    (hfreshS : refS ∉ db.transactions.map Transaction.reference)
    (hfreshR : refR ∉ db.transactions.map Transaction.reference)
    (hSR : refS ≠ refR) :
    LedgerInv (DB.mk
      (db.wallets.map (fun w =>
        if w.id == sender.id then { w with balance := w.balance - amount }
        else if w.id == recipient.id then { w with balance := w.balance + amount } else w))
      (db.transactions ++
        [ { wallet_id := sender.id, user_id := sender.user_id,
            type := TransactionType.TRANSFER, amount := -amount,
            status := TransactionStatus.SUCCESS, reference := refS,
            description := some ("Transfer to wallet " ++ recipient.wallet_number),
            authorization_url := none, paid_at := some now },
          { wallet_id := recipient.id, user_id := recipient.user_id,
            type := TransactionType.TRANSFER, amount := amount,
            status := TransactionStatus.SUCCESS, reference := refR,
            description := some ("Transfer from wallet " ++ sender.wallet_number),
            authorization_url := none, paid_at := some now } ])) := by
  obtain ⟨hids, hrefs, hpend, hbal⟩ := hinv
  have hg : ∀ x : Wallet,
      (if x.id == sender.id then { x with balance := x.balance - amount }
       else if x.id == recipient.id then { x with balance := x.balance + amount } else x).id
        = x.id := by
    intro x
    cases h1 : (x.id == sender.id) <;> cases h2 : (x.id == recipient.id) <;> simp [h1, h2]
  refine ⟨?_, ?_, ?_, ?_⟩
  · rw [map_map_key Wallet.id _ hg db.wallets]
    exact hids
  · rw [List.map_append]
    simp [List.nodup_append, hrefs, hfreshS, hfreshR, hSR, List.nodup_cons]
  · intro t2 ht2 hstat2
    rcases List.mem_append.mp ht2 with hmem | hmem
    · exact hpend t2 hmem hstat2
    · simp only [List.mem_cons, List.mem_singleton, List.not_mem_nil, or_false] at hmem
      rcases hmem with rfl | rfl
      · exact TransactionStatus.noConfusion hstat2
      · exact TransactionStatus.noConfusion hstat2
  · intro w2 hw2
    obtain ⟨x, hx, rfl⟩ := List.mem_map.mp hw2
    obtain ⟨h0, hsum⟩ := hbal x hx
    cases hxs : (x.id == sender.id) with
    | true =>
      have hxeq : x = sender := List.inj_on_of_nodup_map hids hx hsmem (by simpa using hxs)
      refine ⟨?_, ?_⟩ <;> simp only [hxs, if_true]
      · show 0 ≤ x.balance - amount
        rw [hxeq]
        omega
      · show x.balance - amount = txSum x.id _
        rw [txSum_append, ← hsum]
        have hsx : sender.id = x.id := by rw [hxeq]
        have hrx : ¬ (recipient.id = x.id) := by rw [hxeq]; exact fun h => hne h.symm
        have htail : txSum x.id
            [ { wallet_id := sender.id, user_id := sender.user_id,
                type := TransactionType.TRANSFER, amount := -amount,
                status := TransactionStatus.SUCCESS, reference := refS,
                description := some ("Transfer to wallet " ++ recipient.wallet_number),
                authorization_url := none, paid_at := some now },
              { wallet_id := recipient.id, user_id := recipient.user_id,
                type := TransactionType.TRANSFER, amount := amount,
                status := TransactionStatus.SUCCESS, reference := refR,
                description := some ("Transfer from wallet " ++ sender.wallet_number),
                authorization_url := none, paid_at := some now } ] = -amount := by
          simp [txSum, contrib, hsx, hrx]
        rw [htail]
        ring
    | false =>
      cases hxr : (x.id == recipient.id) with
      | true =>
        have hxeq : x = recipient := List.inj_on_of_nodup_map hids hx hrmem (by simpa using hxr)
        refine ⟨?_, ?_⟩ <;> simp only [hxs, Bool.false_eq_true, if_false, hxr, if_true]
        · show 0 ≤ x.balance + amount
          omega
        · show x.balance + amount = txSum x.id _
          rw [txSum_append, ← hsum]
          have hsx : ¬ (sender.id = x.id) := by rw [hxeq]; exact hne
          have hrx : recipient.id = x.id := by rw [hxeq]
          have htail : txSum x.id
              [ { wallet_id := sender.id, user_id := sender.user_id,
                  type := TransactionType.TRANSFER, amount := -amount,
                  status := TransactionStatus.SUCCESS, reference := refS,
                  description := some ("Transfer to wallet " ++ recipient.wallet_number),
                  authorization_url := none, paid_at := some now },
                { wallet_id := recipient.id, user_id := recipient.user_id,
                  type := TransactionType.TRANSFER, amount := amount,
                  status := TransactionStatus.SUCCESS, reference := refR,
                  description := some ("Transfer from wallet " ++ sender.wallet_number),
                  authorization_url := none, paid_at := some now } ] = amount := by
            simp [txSum, contrib, hsx, hrx]
          rw [htail]
      | false =>
        refine ⟨?_, ?_⟩ <;> simp only [hxs, hxr, Bool.false_eq_true, if_false]
        · exact h0
        · show x.balance = txSum x.id _
          rw [txSum_append, ← hsum]
          have hsx : ¬ (sender.id = x.id) :=
            fun h => (by simpa using hxs : ¬ x.id = sender.id) h.symm
          have hrx : ¬ (recipient.id = x.id) :=
            fun h => (by simpa using hxr : ¬ x.id = recipient.id) h.symm
          have htail : txSum x.id
              [ { wallet_id := sender.id, user_id := sender.user_id,
                  type := TransactionType.TRANSFER, amount := -amount,
                  status := TransactionStatus.SUCCESS, reference := refS,
                  description := some ("Transfer to wallet " ++ recipient.wallet_number),
                  authorization_url := none, paid_at := some now },
                { wallet_id := recipient.id, user_id := recipient.user_id,
                  type := TransactionType.TRANSFER, amount := amount,
                  status := TransactionStatus.SUCCESS, reference := refR,
                  description := some ("Transfer from wallet " ++ sender.wallet_number),
                  authorization_url := none, paid_at := some now } ] = 0 := by
            simp [txSum, contrib, hsx, hrx]
          rw [htail]
          ring

theorem inv_initiate (db : DB) (uid : Nat) (amount : Int) (suffix : String)
    (resp : GatewayResponse) (hinv : LedgerInv db)
    (hfresh : ("dep_" ++ suffix) ∉ db.transactions.map Transaction.reference) :
    LedgerInv (initiate_wallet_deposit db uid amount suffix resp).1 := by
  unfold initiate_wallet_deposit
  cases hfw : db.wallets.find? (fun w => w.user_id == uid) with
  | none => exact hinv
  | some wallet =>
    by_cases hamt : amount ≤ 0
    · simpa [hamt] using hinv
    · simp only [if_neg hamt]
      by_cases hsc : resp.status_code ≠ 200
      · simpa [if_pos hsc] using hinv
      · simp only [if_neg hsc]
        by_cases hok2 : resp.ok_status = false
        · simp only [if_pos hok2]
          exact inv_append_pending db _ hinv rfl (by show 0 < amount; omega) hfresh
        · simp only [if_neg hok2]
          exact inv_append_pending db _ hinv rfl (by show 0 < amount; omega) hfresh

theorem inv_applyOp (db : DB) (op : LedgerOp) (hinv : LedgerInv db) :
    LedgerInv (applyOp db op) := by
  cases op with
  | initiateDeposit uid amount suffix resp =>
    simp only [applyOp]
    cases hdup : db.transactions.any (fun t2 => t2.reference == "dep_" ++ suffix) with
    | true => simpa [hdup] using hinv
    | false =>
      simp only [hdup, Bool.false_eq_true, if_false]
      exact inv_initiate db uid amount suffix resp hinv
        (ref_fresh_of_any_false db.transactions ("dep_" ++ suffix) hdup)
  | confirmDeposit r now =>
    exact inv_webhook_ledger db
      { event := some "charge.success", reference := some r } now hinv
  | transfer sid rnum amount sufS sufR now =>
    simp only [applyOp]
    by_cases hamt : amount ≤ 0
    · simpa [hamt] using hinv
    · simp only [if_neg hamt]
      cases heq : (("xfer_" ++ sufS : String) == "xfer_" ++ sufR) with
      | true => simpa [heq] using hinv
      | false =>
        simp only [heq, Bool.false_eq_true, if_false]
        cases hdup : db.transactions.any (fun t2 =>
            t2.reference == "xfer_" ++ sufS || t2.reference == "xfer_" ++ sufR) with
        | true => simpa [hdup] using hinv
        | false =>
          simp only [hdup, Bool.false_eq_true, if_false]
          have hfreshS : ("xfer_" ++ sufS) ∉ db.transactions.map Transaction.reference := by
            intro hmem
            obtain ⟨t2, ht2, hteq⟩ := List.mem_map.mp hmem
            have htrue : db.transactions.any (fun t2 =>
                t2.reference == "xfer_" ++ sufS || t2.reference == "xfer_" ++ sufR) = true :=
              List.any_eq_true.mpr ⟨t2, ht2, by simp [hteq]⟩
            rw [htrue] at hdup
            exact Bool.noConfusion hdup
          have hfreshR : ("xfer_" ++ sufR) ∉ db.transactions.map Transaction.reference := by
            intro hmem
            obtain ⟨t2, ht2, hteq⟩ := List.mem_map.mp hmem
            have htrue : db.transactions.any (fun t2 =>
                t2.reference == "xfer_" ++ sufS || t2.reference == "xfer_" ++ sufR) = true :=
              List.any_eq_true.mpr ⟨t2, ht2, by simp [hteq]⟩
            rw [htrue] at hdup
            exact Bool.noConfusion hdup
          have hSR : ("xfer_" ++ sufS : String) ≠ ("xfer_" ++ sufR) := by simpa using heq
          unfold runTransfer transfer_funds
          cases hfs : db.wallets.find? (fun w => w.user_id == sid) with
          | none => exact hinv
          | some sender =>
            by_cases hlt : sender.balance < amount
            · simpa [hlt] using hinv
            · simp only [if_neg hlt]
              cases hfr : db.wallets.find? (fun w => w.wallet_number == rnum) with
              | none => exact hinv
              | some recipient =>
                cases hbeq : (sender.id == recipient.id) with
                | true => simpa [hbeq] using hinv
                | false =>
                  simp only [hbeq, Bool.false_eq_true, if_false]
                  exact inv_transfer_state db sender recipient amount
                    ("xfer_" ++ sufS) ("xfer_" ++ sufR) now hinv
                    (List.mem_of_find?_eq_some hfs) (List.mem_of_find?_eq_some hfr)
                    (by simpa using hbeq) (by omega) hlt hfreshS hfreshR hSR

theorem inv_foldl (db : DB) (ops : List LedgerOp) (hinv : LedgerInv db) :
    LedgerInv (ops.foldl applyOp db) := by
  induction ops generalizing db with
  | nil => exact hinv
  | cons op rest ih => exact ih (applyOp db op) (inv_applyOp db op hinv)

/-- Claim C4: every sequence of ledger operations (deposit initiation,
deposit confirmation, transfer), starting from freshly created wallets
with balance 0 and no transactions, keeps every wallet balance
non-negative and equal to the sum of the amounts of all SUCCESS-status
transactions against that wallet. -/
theorem C4_ledger_invariant (db0 : DB) (ops : List LedgerOp)
    (hids : (db0.wallets.map Wallet.id).Nodup)
    (htx : db0.transactions = [])
    (hbal0 : ∀ w ∈ db0.wallets, w.balance = 0) :
    ∀ w ∈ (ops.foldl applyOp db0).wallets,
      0 ≤ w.balance ∧ w.balance = txSum w.id (ops.foldl applyOp db0).transactions := by
  have hinv : LedgerInv db0 := by
    refine ⟨hids, ?_, ?_, ?_⟩
    · rw [htx]
      exact List.nodup_nil
    · intro t ht
      rw [htx] at ht
      cases ht
    · intro w hw
      refine ⟨by rw [hbal0 w hw], ?_⟩
      rw [hbal0 w hw, htx]
      rfl
  exact (inv_foldl db0 ops hinv).2.2.2

/-- Witness for C4: two fresh wallets; a deposit of 5000 is initiated
and confirmed on wallet 1, then 2000 is transferred to wallet 2; the
invariant holds for the resulting wallet-1 row (balance 3000). -/
theorem C4_ledger_invariant_witness :
    0 ≤ (Wallet.mk 1 10 "W1" 3000).balance ∧
    (Wallet.mk 1 10 "W1" 3000).balance = txSum (Wallet.mk 1 10 "W1" 3000).id
      (([ LedgerOp.initiateDeposit 10 5000 "ab" (GatewayResponse.mk 200 true "u"),
          LedgerOp.confirmDeposit "dep_ab" 5,
          LedgerOp.transfer 10 "W2" 2000 "s1" "r1" 6 ] : List LedgerOp).foldl applyOp
        (DB.mk [Wallet.mk 1 10 "W1" 0, Wallet.mk 2 20 "W2" 0] [])).transactions :=
  C4_ledger_invariant
    (DB.mk [Wallet.mk 1 10 "W1" 0, Wallet.mk 2 20 "W2" 0] [])
    [ LedgerOp.initiateDeposit 10 5000 "ab" (GatewayResponse.mk 200 true "u"),
      LedgerOp.confirmDeposit "dep_ab" 5,
      LedgerOp.transfer 10 "W2" 2000 "s1" "r1" 6 ]
    (by decide) rfl (by decide) (Wallet.mk 1 10 "W1" 3000) (by decide)
